import Mathlib

/-
Verification of the log-classification / filtering / retention / export pipeline
of serial_monitor.py (classes Config, LogEntry, LogDisplayWidget, MainWindow,
ExportDialog).

Modelling conventions:
- Python strings are modelled as List Char.
- Python str.strip and the regex class of whitespace are modelled with the ASCII
  whitespace set (space, tab, newline, carriage return, vertical tab, form feed);
  the markers and level tags the pipeline matches are all ASCII.
- datetime timestamps are opaque to the pipeline; a timestamp is modelled by the
  text it renders to (the datetime library is outside the repository).
- Python dict .get with a default is modelled by an if-chain over the fixed keys.
-/

namespace SerialMonitor

/-- ASCII whitespace, as stripped by Python str.strip and matched by the regex
whitespace class. -/
def isPySpace (c : Char) : Bool :=
  c = ' ' || c = '\t' || c = '\n' || c = '\r' || c = '\x0b' || c = '\x0c'

/-- Python str.lstrip (whitespace from the front). -/
def pyLStrip (s : List Char) : List Char := s.dropWhile isPySpace

/-- Python str.strip: whitespace removed from both ends. -/
def pyStrip (s : List Char) : List Char :=
  ((s.dropWhile isPySpace).reverse.dropWhile isPySpace).reverse

/-- The text matched by an unanchored trailing dot-star group in a Python regex:
everything up to the first newline. -/
def dotStar (s : List Char) : List Char := s.takeWhile (fun c => c != '\n')

/-- The character class [0-4] of the level regex in LogEntry._parse_log. -/
def isLevelDigit (c : Char) : Bool :=
  c = '0' || c = '1' || c = '2' || c = '3' || c = '4'

/-- One row of Config.LOG_LEVELS: display name, color, priority/ordinal. -/
structure LevelInfo where
  name : List Char
  color : List Char
  priority : Nat
deriving DecidableEq

/-- Config.LOG_LEVELS, as a lookup from a level tag; none models a missing key. -/
def LOG_LEVELS (lvl : List Char) : Option LevelInfo :=
  if lvl = "0".toList then some ⟨"ERROR".toList, "#FF4444".toList, 0⟩
  else if lvl = "1".toList then some ⟨"WARN".toList, "#FFA500".toList, 1⟩
  else if lvl = "2".toList then some ⟨"INFO".toList, "#00AAFF".toList, 2⟩
  else if lvl = "3".toList then some ⟨"DEBUG".toList, "#00FF88".toList, 3⟩
  else if lvl = "4".toList then some ⟨"VERBOSE".toList, "#888888".toList, 4⟩
  else if lvl = "wm".toList then some ⟨"WIFIMANAGER".toList, "#FF00FF".toList, 5⟩
  else if lvl = "verbose".toList then some ⟨"GENERIC".toList, "#CCCCCC".toList, 6⟩
  else none

/-- A classified log entry (class LogEntry). The timestamp is kept as the text
it renders to; the pipeline never inspects it. -/
structure LogEntry where
  raw_data : List Char
  timestamp : List Char
  level : List Char
  message : List Char
  parsed : Bool
deriving DecidableEq

/-- The match of the regex ([0-4]) in brackets at line start against the
stripped raw data: on success, the digit and the remainder of the line. -/
def matchLevel (raw : List Char) : Option (Char × List Char) :=
  match raw with
  | c1 :: c2 :: c3 :: rest =>
    if c1 = '[' && isLevelDigit c2 && c3 = ']' then some (c2, rest) else none
  | _ => none

/-- The match of the literal star-w-m marker at line start against the stripped
raw data: on success, the remainder of the line. -/
def matchWm (raw : List Char) : Option (List Char) :=
  match raw with
  | c1 :: c2 :: c3 :: rest =>
    if c1 = '*' && c2 = 'w' && c3 = 'm' then some rest else none
  | _ => none

/-- LogEntry._parse_log: tries the level pattern, then the wm pattern, else the
generic fallback. Each path overwrites level, message and parsed. The message
of a recognized line is the dot-star group after the greedy whitespace run. -/
def parse_log (e : LogEntry) : LogEntry :=
  match matchLevel e.raw_data with
  | some p => { e with level := [p.1], message := dotStar (pyLStrip p.2), parsed := true }
  | none =>
    match matchWm e.raw_data with
    | some rest => { e with level := "wm".toList, message := dotStar (pyLStrip rest), parsed := true }
    | none => { e with level := "verbose".toList, message := e.raw_data, parsed := false }

/-- LogEntry.__init__: strips the raw data, seeds level and message from the
optional constructor arguments (None modelled by the empty default of getD),
then runs _parse_log, which overwrites them on every path. -/
def LogEntry.init (raw_data : List Char) (timestamp : List Char)
    (level : Option (List Char)) (message : Option (List Char)) : LogEntry :=
  parse_log
    { raw_data := pyStrip raw_data, timestamp := timestamp,
      level := level.getD [], message := message.getD [], parsed := false }

/-- LogEntry.get_level_name: dict lookup with UNKNOWN as the default. -/
def get_level_name (lvl : List Char) : List Char :=
  match LOG_LEVELS lvl with
  | some info => info.name
  | none => "UNKNOWN".toList

/-- LogEntry.get_level_color: dict lookup with white as the default. -/
def get_level_color (lvl : List Char) : List Char :=
  match LOG_LEVELS lvl with
  | some info => info.color
  | none => "#FFFFFF".toList

example : (LogEntry.init ("[2] system ready".toList) [] none none).level = "2".toList := by decide

example : (LogEntry.init ("[2] system ready".toList) [] none none).message
    = "system ready".toList := by decide

example : (LogEntry.init ("*wm AP started".toList) [] none none).level = "wm".toList := by decide

example : (LogEntry.init ("boot complete".toList) [] none none).message
    = "boot complete".toList := by decide

example : (LogEntry.init ("boot complete".toList) [] none none).parsed = false := by decide

/-- Python list slice xs[-n:]: the whole list when n = 0, else the last n
elements. -/
def pyLastSlice {α : Type} (n : Nat) (xs : List α) : List α :=
  if n = 0 then xs else xs.drop (xs.length - n)

/-- LogDisplayWidget.add_log_entry: append the entry, then trim the store to the
last max_lines entries when the count exceeds max_lines. -/
def add_log_entry {α : Type} (max_lines : Nat) (log_entries : List α) (entry : α) : List α :=
  if max_lines < (log_entries ++ [entry]).length
  then pyLastSlice max_lines (log_entries ++ [entry])
  else log_entries ++ [entry]

/-- A sequence of add_log_entry calls, one per ingested line. -/
def addAll {α : Type} (max_lines : Nat) (log_entries : List α) (new : List α) : List α :=
  new.foldl (add_log_entry max_lines) log_entries

/-- The level_map dict of LogDisplayWidget.apply_filters, with its .get default
of 2 (INFO) for an unknown tag. -/
def level_map (lvl : List Char) : Nat :=
  if lvl = "0".toList then 0
  else if lvl = "1".toList then 1
  else if lvl = "2".toList then 2
  else if lvl = "3".toList then 3
  else if lvl = "4".toList then 4
  else if lvl = "wm".toList then 5
  else if lvl = "verbose".toList then 6
  else 2

/-- The stable ordinal of a category tag, read off Config.LOG_LEVELS (its
priority field), with the same out-of-vocabulary default as level_map. -/
def ordinal (lvl : List Char) : Nat :=
  match LOG_LEVELS lvl with
  | some info => info.priority
  | none => 2

/-- LogDisplayWidget.apply_filters: the linear scan over the store that keeps an
entry when its level index is in bounds and the filter flag at that index is
set. -/
def apply_filters (level_filter : List Bool) : List LogEntry → List LogEntry
  | [] => []
  | e :: rest =>
    if decide (level_map e.level < level_filter.length) && level_filter.getD (level_map e.level) false
    then e :: apply_filters level_filter rest
    else apply_filters level_filter rest

/-- The running total of MainWindow.update_statistics: sum of len(raw_data)
over the store. -/
def total_size (entries : List LogEntry) : Nat :=
  (entries.map (fun e => e.raw_data.length)).sum

/-- MainWindow.trim_logs: keep the most recent 1000 entries when the store holds
more than 1000. -/
def trim_logs (entries : List LogEntry) : List LogEntry :=
  if 1000 < entries.length then pyLastSlice 1000 entries else entries

/-- The size check of MainWindow.update_statistics: trim when
size_kb > log_file_size_mb * 1024, where size_kb = total_size / 1024; the
division by 1024 is exact in the reals, so the test is
total_size > log_file_size_mb * 1024 * 1024. -/
def update_statistics (log_file_size_mb : Nat) (entries : List LogEntry) : List LogEntry :=
  if log_file_size_mb * 1024 * 1024 < total_size entries then trim_logs entries else entries

/-- The quote-doubling of ExportDialog.format_entry:
message.replace of one double quote by two. -/
def csvEscape : List Char → List Char
  | [] => []
  | c :: rest => if c = '"' then '"' :: '"' :: csvEscape rest else c :: csvEscape rest

/-- ExportDialog.format_entry, CSV branch: the f-string building one record with
every field double-quoted; only the message gets its quotes doubled. -/
def format_entry_csv (include_timestamps : Bool) (e : LogEntry) : List Char :=
  let ts := if include_timestamps then e.timestamp else []
  let level := get_level_name e.level
  let message := csvEscape e.message
  if include_timestamps then
    '"' :: (ts ++ '"' :: ',' :: '"' :: (level ++ '"' :: ',' :: '"' :: (message ++ ['"'])))
  else
    '"' :: (level ++ '"' :: ',' :: '"' :: (message ++ ['"']))

/-- The CSV header line written by ExportDialog.export_logs (without its
trailing newline). -/
def csvHeader (include_timestamps : Bool) : List Char :=
  if include_timestamps then "Timestamp,Level,Message".toList else "Level,Message".toList

/-- Reader for one double-quoted CSV field body: consumes up to the closing
quote, undoing the quote doubling; returns the field text and the remainder
after the closing quote. -/
def scanField : List Char → Option (List Char × List Char)
  | [] => none
  | c :: rest =>
    if c = '"' then
      match rest with
      | '"' :: rest2 => (scanField rest2).map (fun p => ('"' :: p.1, p.2))
      | _ => some ([], rest)
    else (scanField rest).map (fun p => (c :: p.1, p.2))

/-- Reader for one double-quoted CSV field including its opening quote. -/
def parseField (s : List Char) : Option (List Char × List Char) :=
  match s with
  | '"' :: rest => scanField rest
  | _ => none

/-- Reader for the comma between two CSV fields. -/
def expectComma (s : List Char) : Option (List Char) :=
  match s with
  | ',' :: rest => some rest
  | _ => none

/-- Reader for a whole two-field CSV record (level, message). -/
def parseRecord2 (s : List Char) : Option (List Char × List Char) :=
  (parseField s).bind fun p1 =>
    (expectComma p1.2).bind fun r1 =>
      (parseField r1).bind fun p2 =>
        if p2.2 = [] then some (p1.1, p2.1) else none

/-- Reader for a whole three-field CSV record (timestamp, level, message). -/
def parseRecord3 (s : List Char) : Option (List Char × List Char × List Char) :=
  (parseField s).bind fun p1 =>
    (expectComma p1.2).bind fun r1 =>
      (parseRecord2 r1).map fun p => (p1.1, p.1, p.2)

example :
    parseRecord2 (format_entry_csv false (LogEntry.init ("he, \"x\" there".toList) [] none none))
      = some ("GENERIC".toList, "he, \"x\" there".toList) := by decide

example :
    parseRecord3 (format_entry_csv true (LogEntry.init ("[0] a,\"b".toList) ("t1".toList) none none))
      = some ("t1".toList, "ERROR".toList, "a,\"b".toList) := by decide

example : add_log_entry 3 (["a".toList, "b".toList, "c".toList]) ("d".toList)
    = ["b".toList, "c".toList, "d".toList] := by decide

lemma mem_of_mem_pyLStrip {c : Char} {l : List Char} (h : c ∈ pyLStrip l) : c ∈ l :=
  (List.dropWhile_sublist isPySpace).subset h

lemma mem_of_mem_pyStrip {c : Char} {l : List Char} (h : c ∈ pyStrip l) : c ∈ l := by
  unfold pyStrip at h
  have h1 : c ∈ (l.dropWhile isPySpace).reverse :=
    (List.dropWhile_sublist isPySpace).subset (List.mem_reverse.mp h)
  exact (List.dropWhile_sublist isPySpace).subset (List.mem_reverse.mp h1)

lemma dotStar_eq_self {s : List Char} (h : '\n' ∉ s) : dotStar s = s := by
  unfold dotStar
  refine List.takeWhile_eq_self_iff.mpr ?_
  intro x hx
  exact bne_iff_ne.mpr (fun hEq => h (hEq ▸ hx))

lemma matchLevel_cons (c1 c2 c3 : Char) (rest : List Char) :
    matchLevel (c1 :: c2 :: c3 :: rest)
      = if c1 = '[' && isLevelDigit c2 && c3 = ']' then some (c2, rest) else none := rfl

lemma matchWm_cons (c1 c2 c3 : Char) (rest : List Char) :
    matchWm (c1 :: c2 :: c3 :: rest)
      = if c1 = '*' && c2 = 'w' && c3 = 'm' then some rest else none := rfl

lemma matchLevel_shape {raw : List Char} {p : Char × List Char}
    (h : matchLevel raw = some p) :
    raw = '[' :: p.1 :: ']' :: p.2 ∧ isLevelDigit p.1 = true := by
  rcases raw with _ | ⟨c1, _ | ⟨c2, _ | ⟨c3, rest⟩⟩⟩
  · exact Option.noConfusion h
  · exact Option.noConfusion h
  · exact Option.noConfusion h
  · rw [matchLevel_cons] at h
    split at h
    · rename_i hcond
      simp only [Bool.and_eq_true, decide_eq_true_eq] at hcond
      obtain ⟨⟨h1, h2⟩, h3⟩ := hcond
      subst h1; subst h3
      cases h
      exact ⟨rfl, h2⟩
    · exact Option.noConfusion h

lemma matchWm_shape {raw : List Char} {rest : List Char}
    (h : matchWm raw = some rest) : raw = '*' :: 'w' :: 'm' :: rest := by
  rcases raw with _ | ⟨c1, _ | ⟨c2, _ | ⟨c3, t⟩⟩⟩
  · exact Option.noConfusion h
  · exact Option.noConfusion h
  · exact Option.noConfusion h
  · rw [matchWm_cons] at h
    split at h
    · rename_i hcond
      simp only [Bool.and_eq_true, decide_eq_true_eq] at hcond
      obtain ⟨⟨h1, h2⟩, h3⟩ := hcond
      subst h1; subst h2; subst h3
      cases h
      rfl
    · exact Option.noConfusion h

lemma matchLevel_of_shape (d : Char) (rest : List Char) (hd : isLevelDigit d = true) :
    matchLevel ('[' :: d :: ']' :: rest) = some (d, rest) := by
  rw [matchLevel_cons]
  simp [hd]

lemma matchWm_of_shape (rest : List Char) :
    matchWm ('*' :: 'w' :: 'm' :: rest) = some rest := by
  rw [matchWm_cons]
  simp

lemma parse_log_level (e : LogEntry) (d : Char) (rest : List Char)
    (h : e.raw_data = '[' :: d :: ']' :: rest) (hd : isLevelDigit d = true) :
    parse_log e
      = { e with level := [d], message := dotStar (pyLStrip rest), parsed := true } := by
  unfold parse_log
  rw [h, matchLevel_of_shape d rest hd]

lemma matchLevel_none_of_head (c : Char) (t : List Char) (hc : c ≠ '[') :
    matchLevel (c :: t) = none := by
  rcases t with _ | ⟨c2, _ | ⟨c3, rest⟩⟩ <;> simp only [matchLevel]
  rw [if_neg]
  simp [hc]

lemma matchWm_none_of_head (c : Char) (t : List Char) (hc : c ≠ '*') :
    matchWm (c :: t) = none := by
  rcases t with _ | ⟨c2, _ | ⟨c3, rest⟩⟩ <;> simp only [matchWm]
  rw [if_neg]
  simp [hc]

lemma parse_log_wm (e : LogEntry) (rest : List Char)
    (h : e.raw_data = '*' :: 'w' :: 'm' :: rest) :
    parse_log e
      = { e with level := "wm".toList, message := dotStar (pyLStrip rest), parsed := true } := by
  unfold parse_log
  rw [h, matchLevel_none_of_head '*' _ (by decide), matchWm_of_shape]

lemma parse_log_generic (e : LogEntry)
    (h1 : matchLevel e.raw_data = none) (h2 : matchWm e.raw_data = none) :
    parse_log e
      = { e with level := "verbose".toList, message := e.raw_data, parsed := false } := by
  unfold parse_log
  rw [h1, h2]

lemma init_raw_data (l ts : List Char) (lvl msg : Option (List Char)) :
    (LogEntry.init l ts lvl msg).raw_data = pyStrip l := by
  unfold LogEntry.init parse_log
  cases hm : matchLevel (pyStrip l) <;> [skip; rfl]
  cases hw : matchWm (pyStrip l) <;> rfl

/-- C1: classification follows strict precedence: a line whose stripped text
starts with a bracketed digit 0..4 gets that digit as its category and the rest
with leading whitespace stripped as its message; otherwise a line starting with
the star-w-m marker gets category wm and the rest with leading whitespace
stripped; in particular classifying a bracketed-2 system-ready line yields
category 2 with message system ready. -/
theorem c1_classifier_precedence (l ts : List Char) (hnl : '\n' ∉ l) :
    (∀ d rest, pyStrip l = '[' :: d :: ']' :: rest → isLevelDigit d = true →
      (LogEntry.init l ts none none).level = [d] ∧
      (LogEntry.init l ts none none).message = pyLStrip rest) ∧
    (∀ rest, pyStrip l = '*' :: 'w' :: 'm' :: rest →
      (LogEntry.init l ts none none).level = "wm".toList ∧
      (LogEntry.init l ts none none).message = pyLStrip rest) ∧
    ((LogEntry.init ("[2] system ready".toList) ts none none).level = "2".toList ∧
     (LogEntry.init ("[2] system ready".toList) ts none none).message
        = "system ready".toList) := by
  refine ⟨?_, ?_, ?_, ?_⟩
  · intro d rest h hd
    have hrest : '\n' ∉ rest := by
      intro hin
      exact hnl (mem_of_mem_pyStrip (h ▸ (by simp [hin])))
    have hds : dotStar (pyLStrip rest) = pyLStrip rest :=
      dotStar_eq_self (fun hin => hrest (mem_of_mem_pyLStrip hin))
    unfold LogEntry.init
    rw [parse_log_level _ d rest (by simpa using h) hd]
    exact ⟨rfl, hds⟩
  · intro rest h
    have hrest : '\n' ∉ rest := by
      intro hin
      exact hnl (mem_of_mem_pyStrip (h ▸ (by simp [hin])))
    have hds : dotStar (pyLStrip rest) = pyLStrip rest :=
      dotStar_eq_self (fun hin => hrest (mem_of_mem_pyLStrip hin))
    unfold LogEntry.init
    rw [parse_log_wm _ rest (by simpa using h)]
    exact ⟨rfl, hds⟩
  · rfl
  · rfl

/-- C2: a line matching neither marker is assigned the catch-all category, is
marked unrecognized, and its message is the retained raw line itself (the
stripped input, which is the input verbatim whenever the input carries no
surrounding whitespace). -/
theorem c2_catchall_verbatim (l ts : List Char)
    (h1 : matchLevel (pyStrip l) = none) (h2 : matchWm (pyStrip l) = none) :
    (LogEntry.init l ts none none).level = "verbose".toList ∧
    (LogEntry.init l ts none none).parsed = false ∧
    (LogEntry.init l ts none none).message = (LogEntry.init l ts none none).raw_data ∧
    (LogEntry.init l ts none none).raw_data = pyStrip l ∧
    (pyStrip l = l → (LogEntry.init l ts none none).message = l) := by
  unfold LogEntry.init
  rw [parse_log_generic _ (by simpa using h1) (by simpa using h2)]
  refine ⟨rfl, rfl, rfl, rfl, ?_⟩
  intro h
  simpa using h

/-- C3: marker matching is anchored at the start of the (stripped) line and is
exact and case-sensitive: an entry is recognized precisely when the bracketed
digit marker or the star-w-m marker is a prefix of the stripped line, and a
line that is empty after trimming still yields an entry whose message is
empty. -/
theorem c3_anchored_exact (l ts : List Char) :
    (pyStrip l = [] →
      (LogEntry.init l ts none none).message = [] ∧
      (LogEntry.init l ts none none).level = "verbose".toList) ∧
    ((LogEntry.init l ts none none).parsed = true ↔
      (∃ d rest, pyStrip l = '[' :: d :: ']' :: rest ∧ isLevelDigit d = true) ∨
      (∃ rest, pyStrip l = '*' :: 'w' :: 'm' :: rest)) := by
  cases hm : matchLevel (pyStrip l) with
  | some p =>
    obtain ⟨hshape, hd⟩ := matchLevel_shape hm
    constructor
    · intro hempty
      rw [hempty] at hshape
      exact absurd hshape (by simp)
    · unfold LogEntry.init
      rw [parse_log_level _ p.1 p.2 (by simpa using hshape) hd]
      simp only [true_iff]
      exact Or.inl ⟨p.1, p.2, hshape, hd⟩
  | none =>
    cases hw : matchWm (pyStrip l) with
    | some rest =>
      have hshape := matchWm_shape hw
      constructor
      · intro hempty
        rw [hempty] at hshape
        exact absurd hshape (by simp)
      · unfold LogEntry.init
        rw [parse_log_wm _ rest (by simpa using hshape)]
        simp only [true_iff]
        exact Or.inr ⟨rest, hshape⟩
    | none =>
      unfold LogEntry.init
      rw [parse_log_generic _ (by simpa using hm) (by simpa using hw)]
      constructor
      · intro hempty
        exact ⟨by simpa using hempty, rfl⟩
      · constructor
        · intro hfalse
          exact Bool.noConfusion hfalse
        · rintro (⟨d, rest, hshape, hd⟩ | ⟨rest, hshape⟩)
          · rw [hshape, matchLevel_of_shape d rest hd] at hm
            cases hm
          · rw [hshape, matchWm_of_shape rest] at hw
            cases hw

/-- C9: the level registry is total: an unknown category tag resolves to the
UNKNOWN display name and the white default color rather than failing, and a
known tag resolves to its table row. -/
theorem c9_registry_defaults (lvl : List Char) :
    (LOG_LEVELS lvl = none →
      get_level_name lvl = "UNKNOWN".toList ∧ get_level_color lvl = "#FFFFFF".toList) ∧
    (∀ info, LOG_LEVELS lvl = some info →
      get_level_name lvl = info.name ∧ get_level_color lvl = info.color) := by
  constructor
  · intro h
    unfold get_level_name get_level_color
    rw [h]
    exact ⟨rfl, rfl⟩
  · intro info h
    unfold get_level_name get_level_color
    rw [h]
    exact ⟨rfl, rfl⟩

lemma dropWhile_append_singleton {p : Char → Bool} {c : Char} (hc : p c = false) :
    ∀ xs : List Char, List.dropWhile p (xs ++ [c]) = List.dropWhile p xs ++ [c]
  | [] => by simp [List.dropWhile, hc]
  | x :: xs => by
    simp only [List.cons_append, List.dropWhile_cons]
    cases hx : p x
    · simp
    · simp [dropWhile_append_singleton hc xs]

lemma pyStrip_cons_head (c : Char) (hc : isPySpace c = false) (s : List Char) :
    ∃ t, pyStrip (c :: s) = c :: t := by
  refine ⟨(s.reverse.dropWhile isPySpace).reverse, ?_⟩
  unfold pyStrip
  rw [List.dropWhile_cons_of_neg (by simp [hc]), List.reverse_cons,
    dropWhile_append_singleton hc, List.reverse_append]
  simp

lemma parse_log_overwrite (e1 e2 : LogEntry)
    (hraw : e1.raw_data = e2.raw_data) (hts : e1.timestamp = e2.timestamp) :
    parse_log e1 = parse_log e2 := by
  cases e1 with
  | mk r1 t1 l1 m1 p1 =>
    cases e2 with
    | mk r2 t2 l2 m2 p2 =>
      simp only at hraw hts
      subst hraw; subst hts
      unfold parse_log
      cases hm : matchLevel r1 <;> [skip; rfl]
      cases hw : matchWm r1 <;> rfl

lemma pyLastSlice_of_pos {α : Type} {n : Nat} (hn : 0 < n) (xs : List α) :
    pyLastSlice n xs = xs.drop (xs.length - n) := by
  unfold pyLastSlice
  rw [if_neg (Nat.pos_iff_ne_zero.mp hn)]

lemma add_log_entry_length_le {α : Type} {max_lines : Nat} (hpos : 0 < max_lines)
    {store : List α} (hs : store.length ≤ max_lines) (e : α) :
    (add_log_entry max_lines store e).length ≤ max_lines := by
  unfold add_log_entry
  split
  · rw [pyLastSlice_of_pos hpos, List.length_drop]
    omega
  · rename_i h
    rw [List.length_append, List.length_singleton] at h ⊢
    omega

lemma add_log_entry_isSuffix {α : Type} (max_lines : Nat) (store : List α) (e : α) :
    (add_log_entry max_lines store e).IsSuffix (store ++ [e]) := by
  unfold add_log_entry pyLastSlice
  split
  · split
    · exact List.suffix_refl _
    · exact List.drop_suffix _ _
  · exact List.suffix_refl _

/-- The last-max_lines normal form of a store built by repeated appends. -/
def capped {α : Type} (max_lines : Nat) (xs : List α) : List α :=
  if xs.length ≤ max_lines then xs else xs.drop (xs.length - max_lines)

lemma capped_eq_drop {α : Type} {max_lines : Nat} (xs : List α) (h : max_lines ≤ xs.length) :
    capped max_lines xs = xs.drop (xs.length - max_lines) := by
  unfold capped
  split
  · rename_i hle
    have h0 : xs.length - max_lines = 0 := by omega
    rw [h0, List.drop_zero]
  · rfl

lemma capped_add_append {α : Type} {max_lines : Nat} (hpos : 0 < max_lines)
    {store : List α} (hs : store.length ≤ max_lines) (e : α) (rest : List α) :
    capped max_lines (add_log_entry max_lines store e ++ rest)
      = capped max_lines (store ++ e :: rest) := by
  unfold add_log_entry
  split
  · rename_i hover
    rw [List.length_append, List.length_singleton] at hover
    have hlen : store.length = max_lines := by omega
    rw [pyLastSlice_of_pos hpos]
    have hidx : (store ++ [e]).length - max_lines = 1 := by
      rw [List.length_append, List.length_singleton]
      omega
    rw [hidx]
    rw [capped_eq_drop (List.drop 1 (store ++ [e]) ++ rest)
      (by rw [List.length_append, List.length_drop, List.length_append, List.length_singleton]; omega)]
    rw [capped_eq_drop (store ++ e :: rest)
      (by rw [List.length_append, List.length_cons]; omega)]
    have h1 : (List.drop 1 (store ++ [e]) ++ rest).length - max_lines = rest.length := by
      rw [List.length_append, List.length_drop, List.length_append, List.length_singleton]
      omega
    have h2 : (store ++ e :: rest).length - max_lines = 1 + rest.length := by
      rw [List.length_append, List.length_cons]
      omega
    rw [h1, h2]
    rw [show store ++ e :: rest = (store ++ [e]) ++ rest from by simp]
    conv_rhs => rw [← List.drop_drop,
      List.drop_append_of_le_length (by rw [List.length_append, List.length_singleton]; omega)]
  · rw [show (store ++ [e]) ++ rest = store ++ e :: rest from by simp]

lemma addAll_eq_capped {α : Type} {max_lines : Nat} (hpos : 0 < max_lines) :
    ∀ (new store : List α), store.length ≤ max_lines →
      addAll max_lines store new = capped max_lines (store ++ new)
  | [], store, hs => by
    unfold addAll capped
    rw [List.foldl_nil, List.append_nil, if_pos hs]
  | e :: rest, store, hs => by
    unfold addAll
    rw [List.foldl_cons]
    have ih := addAll_eq_capped hpos rest (add_log_entry max_lines store e)
      (add_log_entry_length_le hpos hs e)
    unfold addAll at ih
    rw [ih, capped_add_append hpos hs]

/-- C4: after any sequence of appends the store never holds more than max_lines
entries, each append evicts only from the front (the result is a suffix of the
appended store), and appending 1001 entries into an empty store with max_lines
1000 leaves exactly the last 1000 entries in their original relative order. -/
theorem c4_bounded_retention (max_lines : Nat) (hpos : 0 < max_lines)
    (store new : List LogEntry) (hstore : store.length ≤ max_lines) :
    (addAll max_lines store new).length ≤ max_lines ∧
    (∀ e, (add_log_entry max_lines store e).IsSuffix (store ++ [e])) ∧
    (∀ es : List LogEntry, es.length = 1001 →
      addAll 1000 ([] : List LogEntry) es = es.drop 1 ∧
      (addAll 1000 ([] : List LogEntry) es).length = 1000) := by
  refine ⟨?_, fun e => add_log_entry_isSuffix _ _ _, ?_⟩
  · rw [addAll_eq_capped hpos new store hstore]
    unfold capped
    split
    · assumption
    · rw [List.length_drop]
      omega
  · intro es hlen
    have h := addAll_eq_capped (show 0 < 1000 from by omega) es ([] : List LogEntry) (by simp)
    rw [List.nil_append] at h
    rw [h]
    unfold capped
    rw [if_neg (by omega), hlen]
    exact ⟨rfl, by rw [List.length_drop]; omega⟩

/-- C5: when the summed raw-text size exceeds the MB ceiling and the store
holds more than 1000 entries, the size check trims the store to exactly the
1000 most recent entries; with 1000 or fewer entries it removes nothing; and
both the size trim and the count trim are oldest-first suffix trims that
neither reorder nor mutate surviving entries. -/
theorem c5_size_check (log_file_size_mb : Nat) (entries : List LogEntry) :
    (log_file_size_mb * 1024 * 1024 < total_size entries → 1000 < entries.length →
      update_statistics log_file_size_mb entries = entries.drop (entries.length - 1000) ∧
      (update_statistics log_file_size_mb entries).length = 1000) ∧
    (entries.length ≤ 1000 → update_statistics log_file_size_mb entries = entries) ∧
    (update_statistics log_file_size_mb entries).IsSuffix entries ∧
    (∀ (max_lines : Nat) (e : LogEntry),
      (add_log_entry max_lines entries e).IsSuffix (entries ++ [e])) := by
  refine ⟨?_, ?_, ?_, fun max_lines e => add_log_entry_isSuffix _ _ _⟩
  · intro hsize hcount
    unfold update_statistics trim_logs
    rw [if_pos hsize, if_pos hcount, pyLastSlice_of_pos (by omega)]
    exact ⟨rfl, by rw [List.length_drop]; omega⟩
  · intro hcount
    unfold update_statistics trim_logs
    split
    · rw [if_neg (by omega)]
    · rfl
  · unfold update_statistics trim_logs
    split
    · split
      · rw [pyLastSlice_of_pos (by omega)]
        exact List.drop_suffix _ _
      · exact List.suffix_refl _
    · exact List.suffix_refl _

lemma apply_filters_cons (f : List Bool) (e : LogEntry) (rest : List LogEntry) :
    apply_filters f (e :: rest)
      = if decide (level_map e.level < f.length) && f.getD (level_map e.level) false
        then e :: apply_filters f rest
        else apply_filters f rest := rfl

lemma level_map_lt_seven (lvl : List Char) : level_map lvl < 7 := by
  unfold level_map
  split_ifs <;> omega

lemma level_map_eq_ordinal (lvl : List Char) : level_map lvl = ordinal lvl := by
  unfold level_map ordinal LOG_LEVELS
  split_ifs <;> rfl

lemma apply_filters_sublist (f : List Bool) :
    ∀ es : List LogEntry, List.Sublist (apply_filters f es) es
  | [] => List.Sublist.refl []
  | e :: rest => by
    rw [apply_filters_cons]
    split
    · exact List.Sublist.cons₂ e (apply_filters_sublist f rest)
    · exact List.Sublist.cons e (apply_filters_sublist f rest)

lemma getD_replicate_of_lt {a b : Bool} {n i : Nat} (h : i < n) :
    (List.replicate n a).getD i b = a := by
  rw [List.getD_eq_getElem?_getD, List.getElem?_replicate, if_pos h]
  rfl

lemma getD_replicate_false (n i : Nat) :
    (List.replicate n false).getD i false = false := by
  rw [List.getD_eq_getElem?_getD, List.getElem?_replicate]
  split <;> rfl

/-- C6: against a 7-element filter set, the filter view is exactly the linear
filter of the store snapshot by the flag at the ordinal of each entry's
category: membership holds iff the entry is in the snapshot and its flag is
set, and the output is an order-preserving subsequence of the snapshot. -/
theorem c6_filter_view (level_filter : List Bool) (hf : level_filter.length = 7)
    (es : List LogEntry) :
    apply_filters level_filter es
      = es.filter (fun e => level_filter.getD (ordinal e.level) false) ∧
    (∀ e, e ∈ apply_filters level_filter es ↔
      e ∈ es ∧ level_filter.getD (ordinal e.level) false = true) ∧
    List.Sublist (apply_filters level_filter es) es := by
  have hmain : apply_filters level_filter es
      = es.filter (fun e => level_filter.getD (ordinal e.level) false) := by
    induction es with
    | nil => rfl
    | cons e rest ih =>
      rw [apply_filters_cons, List.filter_cons]
      have hlt : level_map e.level < level_filter.length := by
        rw [hf]
        exact level_map_lt_seven _
      rw [decide_eq_true hlt, Bool.true_and, level_map_eq_ordinal]
      by_cases hcase : level_filter.getD (ordinal e.level) false = true
      · rw [if_pos hcase, if_pos hcase, ih]
      · rw [if_neg hcase, if_neg hcase, ih]
  refine ⟨hmain, fun e => ?_, ?_⟩
  · rw [hmain, List.mem_filter]
  · exact apply_filters_sublist _ _

/-- C7: the filter view is always an order-preserving subsequence of its input
snapshot; the all-true filter set returns the snapshot unchanged and the
all-false filter set returns the empty sequence. -/
theorem c7_filter_algebra (es : List LogEntry) :
    (∀ level_filter : List Bool, List.Sublist (apply_filters level_filter es) es) ∧
    apply_filters (List.replicate 7 true) es = es ∧
    apply_filters (List.replicate 7 false) es = [] := by
  refine ⟨fun f => apply_filters_sublist f es, ?_, ?_⟩
  · induction es with
    | nil => rfl
    | cons e rest ih =>
      rw [apply_filters_cons]
      have hlt : level_map e.level < (List.replicate 7 true).length := by
        rw [List.length_replicate]
        exact level_map_lt_seven _
      rw [decide_eq_true hlt, Bool.true_and,
        getD_replicate_of_lt (by simpa using hlt), if_pos rfl, ih]
  · induction es with
    | nil => rfl
    | cons e rest ih =>
      rw [apply_filters_cons, getD_replicate_false, Bool.and_false, ih]
      rfl

lemma csvEscape_cons (c : Char) (rest : List Char) :
    csvEscape (c :: rest)
      = if c = '"' then '"' :: '"' :: csvEscape rest else c :: csvEscape rest := rfl

lemma scanField_quote_quote (rest2 : List Char) :
    scanField ('"' :: '"' :: rest2)
      = (scanField rest2).map (fun p => ('"' :: p.1, p.2)) := rfl

lemma scanField_cons_of_ne {c : Char} (hc : c ≠ '"') (s : List Char) :
    scanField (c :: s) = (scanField s).map (fun p => (c :: p.1, p.2)) := by
  rw [scanField.eq_def]
  simp only []
  rw [if_neg hc]

lemma scanField_quote_end {rest : List Char} (h : rest.head? ≠ some '"') :
    scanField ('"' :: rest) = some ([], rest) := by
  cases rest with
  | nil => rfl
  | cons c rest2 =>
    have hc : ¬(c = '"') := by
      intro hceq
      exact h (by rw [hceq, List.head?_cons])
    unfold scanField
    rw [if_pos rfl]
    split
    · rename_i r2 heq
      exact absurd (List.cons.injEq _ _ _ _ ▸ heq).1 hc
    · rfl

lemma head_comma_ne_quote (tail : List Char) : (',' :: tail).head? ≠ some '"' := by
  rw [List.head?_cons]
  intro hcontr
  exact absurd (Option.some.injEq _ _ ▸ hcontr) (by decide)

lemma head_nil_ne_quote : (([] : List Char)).head? ≠ some '"' := by
  rw [List.head?_nil]
  exact Option.noConfusion

lemma scanField_escaped (m : List Char) : ∀ rest : List Char, rest.head? ≠ some '"' →
    scanField (csvEscape m ++ '"' :: rest) = some (m, rest) := by
  induction m with
  | nil =>
    intro rest h
    rw [show csvEscape [] = [] from rfl, List.nil_append]
    exact scanField_quote_end h
  | cons c m ih =>
    intro rest h
    by_cases hc : c = '"'
    · subst hc
      rw [csvEscape_cons, if_pos rfl, List.cons_append, List.cons_append,
        scanField_quote_quote, ih rest h]
      rfl
    · rw [csvEscape_cons, if_neg hc, List.cons_append, scanField_cons_of_ne hc, ih rest h]
      rfl

lemma csvEscape_eq_self {s : List Char} (h : '"' ∉ s) : csvEscape s = s := by
  induction s with
  | nil => rfl
  | cons c rest ih =>
    have hc : ¬(c = '"') := fun hceq => h (by rw [hceq]; exact List.mem_cons_self _ _)
    have hrest : '"' ∉ rest := fun hin => h (List.mem_cons_of_mem _ hin)
    rw [csvEscape_cons, if_neg hc, ih hrest]

lemma scanField_clean {s : List Char} (hs : '"' ∉ s) {rest : List Char}
    (h : rest.head? ≠ some '"') : scanField (s ++ '"' :: rest) = some (s, rest) := by
  have hesc := scanField_escaped s rest h
  rwa [csvEscape_eq_self hs] at hesc

lemma quote_not_mem_level_name (lvl : List Char) : '"' ∉ get_level_name lvl := by
  unfold get_level_name LOG_LEVELS
  split_ifs <;> decide

lemma parseField_quote (rest : List Char) : parseField ('"' :: rest) = scanField rest := rfl

lemma expectComma_cons (rest : List Char) : expectComma (',' :: rest) = some rest := rfl

lemma parseRecord2_regular {lv : List Char} (hlv : '"' ∉ lv) (msg : List Char) :
    parseRecord2 ('"' :: (lv ++ '"' :: ',' :: '"' :: (csvEscape msg ++ ['"'])))
      = some (lv, msg) := by
  unfold parseRecord2
  rw [parseField_quote, scanField_clean hlv (head_comma_ne_quote _)]
  simp only [Option.some_bind]
  rw [expectComma_cons]
  simp only [Option.some_bind]
  rw [parseField_quote, scanField_escaped msg [] head_nil_ne_quote]
  simp only [Option.some_bind]
  simp

lemma parseRecord3_regular {ts lv : List Char} (hts : '"' ∉ ts) (hlv : '"' ∉ lv)
    (msg : List Char) :
    parseRecord3 ('"' :: (ts ++ '"' :: ',' :: '"' :: (lv ++ '"' :: ',' :: '"' :: (csvEscape msg ++ ['"']))))
      = some (ts, lv, msg) := by
  unfold parseRecord3
  rw [parseField_quote, scanField_clean hts (head_comma_ne_quote _)]
  simp only [Option.some_bind]
  rw [expectComma_cons]
  simp only [Option.some_bind]
  rw [parseRecord2_regular hlv msg]
  rfl

/-- C8: a CSV record double-quotes every field and doubles internal quotes in
the message, so the field reader recovers the timestamp, display name and
message exactly, for any message (commas and quotes included); the header row
names exactly the columns present in the records. -/
theorem c8_csv_roundtrip (e : LogEntry) (hts : '"' ∉ e.timestamp) :
    parseRecord3 (format_entry_csv true e)
      = some (e.timestamp, get_level_name e.level, e.message) ∧
    parseRecord2 (format_entry_csv false e)
      = some (get_level_name e.level, e.message) ∧
    csvHeader true = "Timestamp,Level,Message".toList ∧
    csvHeader false = "Level,Message".toList := by
  refine ⟨?_, ?_, rfl, rfl⟩
  · exact parseRecord3_regular hts (quote_not_mem_level_name e.level) e.message
  · exact parseRecord2_regular (quote_not_mem_level_name e.level) e.message

/-- C10: the constructor-supplied level and message are always overwritten by
the parse step, so construction from the same raw text and timestamp yields the
same entry whatever those arguments are; in particular a locally echoed sent
line (raw text starting with two greater-than signs and a space) constructed
with level 2 still lands in the generic catch-all category, unrecognized. -/
theorem c10_constructor_overwritten (raw ts : List Char)
    (lvl0 msg0 lvl1 msg1 : Option (List Char)) :
    LogEntry.init raw ts lvl0 msg0 = LogEntry.init raw ts lvl1 msg1 ∧
    (∀ data : List Char,
      (LogEntry.init ('>' :: '>' :: ' ' :: data) ts (some ("2".toList)) none).level
        = "verbose".toList ∧
      (LogEntry.init ('>' :: '>' :: ' ' :: data) ts (some ("2".toList)) none).parsed
        = false) := by
  constructor
  · exact parse_log_overwrite _ _ rfl rfl
  · intro data
    obtain ⟨t, ht⟩ := pyStrip_cons_head '>' (by decide) ('>' :: ' ' :: data)
    unfold LogEntry.init
    rw [parse_log_generic]
    · exact ⟨rfl, rfl⟩
    · simp only [ht]
      exact matchLevel_none_of_head '>' t (by decide)
    · simp only [ht]
      exact matchWm_none_of_head '>' t (by decide)

/-- A concrete classified entry used by the concrete witnesses. -/
def exEntry : LogEntry := LogEntry.init ("[1] low battery".toList) [] none none

/-- A concrete entry with commas and quotes in its message and a rendered
timestamp, used by the CSV witness. -/
def csvEntry : LogEntry :=
  LogEntry.init ("[3] a,\"quoted\" text".toList) ("2024-01-02 03:04:05.006".toList) none none

/-- Witness for C1 at the spec scenario line. -/
theorem c1_witness :
    '\n' ∉ ("[2] system ready".toList) ∧
    (LogEntry.init ("[2] system ready".toList) [] none none).level = "2".toList ∧
    (LogEntry.init ("[2] system ready".toList) [] none none).message = "system ready".toList :=
  ⟨by decide, (c1_classifier_precedence ("[2] system ready".toList) [] (by decide)).2.2⟩

/-- Witness for C2 at the spec scenario line. -/
theorem c2_witness :
    matchLevel (pyStrip ("boot complete".toList)) = none ∧
    matchWm (pyStrip ("boot complete".toList)) = none ∧
    (LogEntry.init ("boot complete".toList) [] none none).level = "verbose".toList ∧
    (LogEntry.init ("boot complete".toList) [] none none).message = "boot complete".toList :=
  ⟨by decide, by decide,
    (c2_catchall_verbatim ("boot complete".toList) [] (by decide) (by decide)).1,
    (c2_catchall_verbatim ("boot complete".toList) [] (by decide) (by decide)).2.2.2.2 (by decide)⟩

/-- Witness for C3 at a line that is empty after trimming. -/
theorem c3_witness :
    pyStrip ("  ".toList) = [] ∧
    (LogEntry.init ("  ".toList) [] none none).message = [] ∧
    (LogEntry.init ("  ".toList) [] none none).level = "verbose".toList :=
  ⟨by decide,
    ((c3_anchored_exact ("  ".toList) []).1 (by decide)).1,
    ((c3_anchored_exact ("  ".toList) []).1 (by decide)).2⟩

/-- Witness for C4 at a small concrete configuration. -/
theorem c4_witness :
    0 < 2 ∧ ([] : List LogEntry).length ≤ 2 ∧
    (addAll 2 ([] : List LogEntry) [exEntry, exEntry, exEntry]).length ≤ 2 :=
  ⟨by decide, by decide,
    (c4_bounded_retention 2 (by decide) [] [exEntry, exEntry, exEntry] (by decide)).1⟩

/-- Witness for C5 at a store of one entry (the size check removes nothing). -/
theorem c5_witness :
    [exEntry].length ≤ 1000 ∧ update_statistics 10 [exEntry] = [exEntry] :=
  ⟨by decide, (c5_size_check 10 [exEntry]).2.1 (by decide)⟩

/-- Witness for C6 at the all-true filter set and a one-entry store. -/
theorem c6_witness :
    (List.replicate 7 true).length = 7 ∧
    apply_filters (List.replicate 7 true) [exEntry]
      = [exEntry].filter (fun e => (List.replicate 7 true).getD (ordinal e.level) false) :=
  ⟨by decide, (c6_filter_view (List.replicate 7 true) (by decide) [exEntry]).1⟩

/-- Witness for C7 at a one-entry store. -/
theorem c7_witness :
    apply_filters (List.replicate 7 true) [exEntry] = [exEntry] ∧
    apply_filters (List.replicate 7 false) [exEntry] = [] :=
  ⟨(c7_filter_algebra [exEntry]).2.1, (c7_filter_algebra [exEntry]).2.2⟩

/-- Witness for C8 at an entry whose message holds a comma and quotes. -/
theorem c8_witness :
    '"' ∉ csvEntry.timestamp ∧
    parseRecord3 (format_entry_csv true csvEntry)
      = some (csvEntry.timestamp, get_level_name csvEntry.level, csvEntry.message) :=
  ⟨by decide, (c8_csv_roundtrip csvEntry (by decide)).1⟩

/-- Witness for C9 at a tag outside the vocabulary. -/
theorem c9_witness :
    LOG_LEVELS ("bogus".toList) = none ∧
    get_level_name ("bogus".toList) = "UNKNOWN".toList ∧
    get_level_color ("bogus".toList) = "#FFFFFF".toList :=
  ⟨by decide,
    ((c9_registry_defaults ("bogus".toList)).1 (by decide)).1,
    ((c9_registry_defaults ("bogus".toList)).1 (by decide)).2⟩

/-- Witness for C10 at the echoed-send raw text with constructor level 2. -/
theorem c10_witness :
    LogEntry.init (">> data".toList) [] (some ("2".toList)) none
      = LogEntry.init (">> data".toList) [] none none ∧
    (LogEntry.init ('>' :: '>' :: ' ' :: ("data".toList)) [] (some ("2".toList)) none).level
      = "verbose".toList :=
  ⟨(c10_constructor_overwritten (">> data".toList) [] (some ("2".toList)) none none none).1,
    ((c10_constructor_overwritten ("mm".toList) [] none none none none).2 ("data".toList)).1⟩

end SerialMonitor
